import Mathlib

/-!
# ProtocoloAtestado — verification of the protocol-numbering and deduplication logic

Shallow embedding of the two source revisions (`formulario.py`, `mci_form2pdf.py`):
the ledger is a `DataFrame` of string-or-missing cells, the output directory is a
list of filenames, and the pure functions (`_sanitize_sigla`, `sanitize_num`,
`format_cpf`, `proximo_nreq`, `max_protocolo_na_pasta`, `existe_registro`,
`carregar_planilha`/`salvar_planilha`, `montar_mapa`, `gerar_documento`) are
translated directly.  External libraries are modelled at their interface:
pandas `to_numeric` as parsing of optionally signed decimal integer numerals,
`astype(str)` rendering a missing value (NaN) as `"nan"`, excel write/read as
storing the table unchanged, the date parsers as opaque formatted-string
parameters, and the DOCX→PDF converter as a boolean success oracle.
Characters are treated at ASCII level (the Python code only manipulates
ASCII-relevant classes: digits, A–Z letters, whitespace, word characters).
-/

namespace ProtocoloAtestado

/-! ## Python string primitives (ASCII-level models) -/

/-- Model of Python whitespace membership (`str.strip` default set). -/
def pyIsSpace (c : Char) : Bool :=
  c.toNat == 32 || c.toNat == 9 || c.toNat == 10 || c.toNat == 13 ||
    c.toNat == 11 || c.toNat == 12

/-- Model of `str.strip()` on the character list. -/
def pyStrip (l : List Char) : List Char :=
  ((l.dropWhile pyIsSpace).reverse.dropWhile pyIsSpace).reverse

/-- Model of `str.strip()`. -/
def pyStripS (s : String) : String := String.mk (pyStrip s.data)

/-- ASCII decimal digit (Python `\d` / `str.isdigit` on ASCII input). -/
def pyIsDigit (c : Char) : Bool := 48 ≤ c.toNat && c.toNat ≤ 57

/-- Model of `str.upper()` on one ASCII character. -/
def pyUpper (c : Char) : Char :=
  if 97 ≤ c.toNat && c.toNat ≤ 122 then Char.ofNat (c.toNat - 32) else c

/-- Model of `str.lower()` / `str.casefold()` on one ASCII character. -/
def pyLower (c : Char) : Char :=
  if 65 ≤ c.toNat && c.toNat ≤ 90 then Char.ofNat (c.toNat + 32) else c

/-- Model of `str.casefold()` (ASCII). -/
def casefoldS (s : String) : String := String.mk (s.data.map pyLower)

/-- Python regex word character `\w` (ASCII). -/
def isWordChar (c : Char) : Bool :=
  (65 ≤ c.toNat && c.toNat ≤ 90) || (97 ≤ c.toNat && c.toNat ≤ 122) ||
    (48 ≤ c.toNat && c.toNat ≤ 57) || c.toNat == 95

/-- Value of a big-endian list of digit characters (how `int(...)` reads digits). -/
def digitsVal (l : List Char) : Nat :=
  l.foldl (fun a c => a * 10 + (c.toNat - 48)) 0

/-- Parse of a non-empty all-digit string as a natural number (`int(s)`). -/
def parseDec (s : String) : Option Nat :=
  if s.data.isEmpty then none
  else if s.data.all pyIsDigit then some (digitsVal s.data) else none

/-- Model of `int(pd.to_numeric(s, errors="coerce"))` on a string cell:
an optionally signed decimal integer numeral with surrounding whitespace,
otherwise `none` (coercion yields NaN and `int` raises).  Float numerals
are not modelled; the ledger's sequence column holds integers. -/
def to_numeric_int (s : String) : Option Int :=
  match pyStrip s.data with
  | '-' :: rest =>
      (if rest.isEmpty then none
       else if rest.all pyIsDigit then some (digitsVal rest) else none).map
        (fun n => -(n : Int))
  | '+' :: rest =>
      (if rest.isEmpty then none
       else if rest.all pyIsDigit then some (digitsVal rest) else none).map
        (fun n => (n : Int))
  | l =>
      (if l.isEmpty then none
       else if l.all pyIsDigit then some (digitsVal l) else none).map
        (fun n => (n : Int))

/-! ## Decimal rendering (Python `f"{n:02d}"`) -/

/-- Big-endian decimal digit characters of `n`, by fuelled division
(`decDigitsCore fuel n` is correct whenever `n ≤ fuel`). -/
def decDigitsCore : Nat → Nat → List Char
  | _, 0 => []
  | 0, _ => []
  | fuel + 1, n => decDigitsCore fuel (n / 10) ++ [Char.ofNat (48 + n % 10)]

/-- Decimal representation of `n` as Python's `str(n)` / `"%d"` renders it. -/
def decDigits (n : Nat) : List Char :=
  if n = 0 then ['0'] else decDigitsCore n n

/-- Model of `str(n)` for a natural number. -/
def decRepr (n : Nat) : String := String.mk (decDigits n)

/-- Model of Python `f"{n:02d}"`: decimal digits left-padded with `'0'`
to a minimum width of two (wider values are rendered in full). -/
def format02d (n : Nat) : String :=
  String.mk (List.replicate (2 - (decDigits n).length) '0' ++ decDigits n)

/-! ## Data model: ledger and form record -/

/-- A spreadsheet cell: `none` models a missing value (None / NaN). -/
abbrev Cell := Option String

/-- The tabular ledger: column names and rows of cells (one cell per column). -/
structure DataFrame where
  cols : List String
  rows : List (List Cell)
deriving Repr, DecidableEq

/-- The `dados` dict built from the form (all values optional strings;
`none` models an absent key, looked up with `dict.get(k, "")`). -/
structure Row where
  nome : Option String
  id : Option String
  cpf : Option String
  curso : Option String
  turma : Option String
  oferta : Option String
  chamado : Option String
  data : Option String
  retorno : Option String
deriving Repr, DecidableEq

/-- Position of a column name (`c in df.columns` / indexing). -/
def DataFrame.colIdx (df : DataFrame) (c : String) : Option Nat :=
  df.cols.findIdx? (fun c2 => c2 == c)

/-- The cell of row `r` at column `c`, `none` when the column is absent. -/
def rowCell (df : DataFrame) (r : List Cell) (c : String) : Option Cell :=
  (df.colIdx c).map (fun i => r.getD i none)

/-- pandas `astype(str)` on a cell: NaN renders as the string `"nan"`. -/
def cellToStr : Cell → String
  | none => "nan"
  | some s => s

/-! ## `_sanitize_sigla` (both revisions, identical) -/

/-- Uppercase ASCII letter or digit — the class kept by `re.sub(r"[^A-Z0-9]", "", ·)`. -/
def isUpperAlnum (c : Char) : Bool :=
  (65 ≤ c.toNat && c.toNat ≤ 90) || (48 ≤ c.toNat && c.toNat ≤ 57)

/-- `_sanitize_sigla`: strip, uppercase, delete everything outside `[A-Z0-9]`,
default `"MCI"` when nothing remains. -/
def sanitize_sigla (s : String) : String :=
  let u := ((pyStrip s.data).map pyUpper).filter isUpperAlnum
  if u.isEmpty then "MCI" else String.mk u

/-! ## `sanitize_num`, `get_str`, `format_cpf` -/

/-- `sanitize_num`: `""` for a missing value, else delete every non-digit. -/
def sanitize_num (s : Option String) : String :=
  match s with
  | none => ""
  | some v => String.mk (v.data.filter pyIsDigit)

/-- `get_str`: `""` for a missing value, else strip. -/
def get_str (s : Option String) : String :=
  match s with
  | none => ""
  | some v => pyStripS v

/-- `format_cpf` (formulario.py): keep the first 11 digits; insert the
`ddd.ddd.ddd-dd` punctuation exactly when 11 digits are present. -/
def format_cpf (digs : Option String) : String :=
  let d := (sanitize_num digs).data.take 11
  if d.length = 11 then
    String.mk (d.take 3) ++ "." ++ String.mk ((d.drop 3).take 3) ++ "." ++
      String.mk ((d.drop 6).take 3) ++ "-" ++ String.mk (d.drop 9)
  else String.mk d

/-- The 3-3-3-2 grouped display form of an 11-digit string, as the spec states it. -/
def cpfGrouped (d : String) : String :=
  String.mk (d.data.take 3) ++ "." ++ String.mk ((d.data.drop 3).take 3) ++ "." ++
    String.mk ((d.data.drop 6).take 3) ++ "-" ++ String.mk (d.data.drop 9)

/-! ## Ledger store (`carregar_planilha` / `salvar_planilha`) -/

def COLUNAS_PADRAO : List String :=
  ["N req.", "N chamado", "NOME", "ID", "CPF", "CURSO", "TURMA",
   "Código da oferta", "Data", "retorno (Previsão)"]

/-- The fixed columns absent from `df` (checked by literal name, as `c not in df.columns`). -/
def missingCols (df : DataFrame) : List String :=
  COLUNAS_PADRAO.filter (fun c => !(df.colIdx c).isSome)

/-- `salvar_planilha`: add each missing fixed column filled with `None`, then
write the whole table; the written file is modelled as the resulting table. -/
def salvar_planilha (df : DataFrame) : DataFrame :=
  ⟨df.cols ++ missingCols df,
   df.rows.map (fun r => r ++ List.replicate (missingCols df).length (none : Cell))⟩

/-- `carregar_planilha`: an existing file is read back as stored with column
names stripped; a missing file yields the empty fixed-column table. -/
def carregar_planilha (file : Option DataFrame) : DataFrame :=
  match file with
  | some df => ⟨df.cols.map pyStripS, df.rows⟩
  | none => ⟨COLUNAS_PADRAO, []⟩

/-- Saving a ledger and reloading the saved file. -/
def roundTrip (df : DataFrame) : DataFrame :=
  carregar_planilha (some (salvar_planilha df))

/-! ## Sequence allocation -/

/-- The numeric values of the `"N req."` column:
`pd.to_numeric(df["N req."], errors="coerce")` followed by `dropna()`. -/
def nreqValues (df : DataFrame) : List Int :=
  match df.colIdx "N req." with
  | none => []
  | some i =>
      df.rows.filterMap (fun r =>
        match r.getD i none with
        | none => none
        | some s => to_numeric_int s)

/-- `proximo_nreq` (formulario.py): ledger maximum plus one when the sequence
column has numeric values; otherwise `last_req + 1` when the persisted seed is
non-zero, else `1`. -/
def proximo_nreq_form (df : DataFrame) (last_req : Int) : Int :=
  if (df.colIdx "N req.").isSome && !df.rows.isEmpty then
    match nreqValues df with
    | [] => if last_req ≠ 0 then last_req + 1 else 1
    | x :: xs => xs.foldl max x + 1
  else if last_req ≠ 0 then last_req + 1 else 1

/-- Case-insensitive consumption of the literal `lit` from the front of the
input, tracking the last input character consumed (for the `\b` check);
returns the remaining input.  Models the `re.escape(...)` literal part of the
pattern under `re.IGNORECASE`. -/
def ciConsume : List Char → Char → List Char → Option (Char × List Char)
  | [], last, rest => some (last, rest)
  | _ :: _, _, [] => none
  | p :: ps, _, c :: cs =>
      if pyLower p == pyLower c then ciConsume ps c cs else none

/-- Model of `re.match(r'^(\d{2})SIGLA ANO\b', nome, re.IGNORECASE)`:
two leading digits, then the sigla and the year case-insensitively, then a
word boundary; returns the two-digit value. -/
def protoPrefixVal (sig ano : String) (nome : String) : Option Nat :=
  match nome.data with
  | c0 :: c1 :: rest =>
      if pyIsDigit c0 && pyIsDigit c1 then
        match ciConsume (sig.data ++ ano.data) c1 rest with
        | some (prev, rest2) =>
            let boundary :=
              match rest2 with
              | [] => isWordChar prev
              | c :: _ => isWordChar prev != isWordChar c
            if boundary then some ((c0.toNat - 48) * 10 + (c1.toNat - 48)) else none
        | none => none
      else none
  | _ => none

/-- The two-digit values of all matching filenames in the output directory. -/
def matchedVals (dirFiles : Option (List String)) (sigla ano : String) : List Nat :=
  match dirFiles with
  | none => []
  | some files => files.filterMap (protoPrefixVal (sanitize_sigla sigla) ano)

/-- `max_protocolo_na_pasta`: greatest `NN` of a filename `NN<SIGLA><ANO>…`
in the output directory (`0` for a missing directory or no match).
The directory listing is `none` when the directory does not exist. -/
def max_protocolo_na_pasta (dirFiles : Option (List String)) (sigla ano : String) : Nat :=
  match dirFiles with
  | none => 0
  | some _ => (matchedVals dirFiles sigla ano).foldl max 0

/-- The local `max_sheet` of `proximo_nreq` (mci_form2pdf.py): the ledger
maximum, left at `0` when the guard `"N req." in df.columns and not df.empty`
fails or no value is numeric. -/
def max_sheet_of (df : DataFrame) : Int :=
  if (df.colIdx "N req.").isSome && !df.rows.isEmpty then
    match nreqValues df with
    | [] => 0
    | x :: xs => xs.foldl max x
  else 0

/-- `proximo_nreq` (mci_form2pdf.py): one more than the greater of the ledger
maximum and the largest protocol number found in the output directory. -/
def proximo_nreq_mci (df : DataFrame) (dirFiles : Option (List String))
    (sigla ano : String) : Int :=
  max (max_sheet_of df) ((max_protocolo_na_pasta dirFiles sigla ano : Nat) : Int) + 1

/-- The spec's `max_ledger`: the maximum numeric value of the sequence column,
`0` when the column is absent or entirely non-numeric. -/
def ledgerMaxSpec (df : DataFrame) : Int := (nreqValues df).foldl max 0

/-! ## Duplicate detection (`existe_registro`) -/

/-- Candidate-side lookup `str(dados.get(col, ""))` for the key columns. -/
def dadosGet (dados : Row) (col : String) : String :=
  if col == "NOME" then dados.nome.getD ""
  else if col == "ID" then dados.id.getD ""
  else if col == "CPF" then dados.cpf.getD ""
  else if col == "Data" then dados.data.getD ""
  else ""

/-- The name comparison of one ledger row against the candidate:
`astype(str).str.strip().str.casefold()` versus the stripped, casefolded input. -/
def nomeTest (df : DataFrame) (dados : Row) (r : List Cell) : Bool :=
  casefoldS (pyStripS (cellToStr ((rowCell df r "NOME").getD none))) ==
    casefoldS (pyStripS (dadosGet dados "NOME"))

/-- The exact trimmed string comparison used for the `ID`/`CPF`/`Data` columns. -/
def colTest (df : DataFrame) (dados : Row) (col : String) (r : List Cell) : Bool :=
  pyStripS (cellToStr ((rowCell df r col).getD none)) == pyStripS (dadosGet dados col)

/-- The boolean mask `filtros` starts as the name comparison of every row. -/
def nomeMask (df : DataFrame) (dados : Row) : List Bool :=
  df.rows.map (nomeTest df dados)

/-- One `filtros = filtros & (...)` step: when `col` is a ledger column,
conjoin the trimmed equality of that column, else leave the mask unchanged. -/
def colMask (df : DataFrame) (dados : Row) (col : String) (mask : List Bool) :
    List Bool :=
  if (df.colIdx col).isSome then
    List.zipWith (fun b r => b && colTest df dados col r) mask df.rows
  else mask

/-- `int(pd.to_numeric(existentes.iloc[0]["N req."], errors="coerce"))` wrapped
in `try/except`: `none` when the column is absent (KeyError), the cell is
missing (int(NaN) raises) or the cell does not parse as a number. -/
def seqParse (df : DataFrame) (r : List Cell) : Option Int :=
  match rowCell df r "N req." with
  | none => none
  | some none => none
  | some (some s) => to_numeric_int s

/-- `existe_registro`: `None` for an empty ledger; otherwise filter by the
name/ID/CPF/Data mask and return the first matching row's parsed `N req.`. -/
def existe_registro (df : DataFrame) (dados : Row) : Option Int :=
  if df.rows.isEmpty then none
  else
    let mask :=
      colMask df dados "Data" (colMask df dados "CPF"
        (colMask df dados "ID" (nomeMask df dados)))
    match (List.zip df.rows mask).filterMap
        (fun p => if p.2 then some p.1 else none) with
    | [] => none
    | r :: _ => seqParse df r

/-- The duplicate-detection row predicate as the spec words it: the name
matches case-insensitively after trimming, and each of `ID`, `CPF`, `Data`
that exists as a ledger column matches exactly after trimming. -/
def matchesCandidate (df : DataFrame) (dados : Row) (r : List Cell) : Bool :=
  nomeTest df dados r &&
    (["ID", "CPF", "Data"].all fun col =>
      !(df.colIdx col).isSome || colTest df dados col r)

/-! ## Document rendering (`montar_mapa`, `gerar_documento`) -/

/-- The substitution map built from a record.  The two date fields go through
`parse_data_flex`/`fmt_data_pt`, an external date pipeline modelled here by
the already formatted strings `data_ext`/`data_retorno_ext`.  This is the
formulario.py revision; mci_form2pdf.py differs only in the `cpf` field
(`sanitize_num` instead of `format_cpf`), which no claim depends on. -/
structure Mapa where
  protocolo : String
  nome : String
  id : String
  cpf : String
  curso : String
  turma : String
  oferta : String
  chamado : String
  data_ext : String
  data_retorno_ext : String
deriving Repr, DecidableEq

def montar_mapa (row : Row) (protocolo_num : Nat)
    (data_ext data_retorno_ext : String) : Mapa :=
  { protocolo := format02d protocolo_num
    nome := get_str row.nome
    id := sanitize_num row.id
    cpf := format_cpf row.cpf
    curso := get_str row.curso
    turma := get_str row.turma
    oferta := sanitize_num row.oferta
    chamado := sanitize_num row.chamado
    data_ext := data_ext
    data_retorno_ext := data_retorno_ext }

/-- Default output directory (`MCI_SAIDAS` unset). -/
def PASTA_SAIDA : String := "Requerimentos"

/-- `base = f"{mapa['protocolo']}{_sanitize_sigla(sigla)}{ano} {mapa['nome']}"`. -/
def base_name (linha : Row) (n : Nat) (sigla ano dataExt dataRet : String) : String :=
  (montar_mapa linha n dataExt dataRet).protocolo ++ sanitize_sigla sigla ++ ano ++
    " " ++ (montar_mapa linha n dataExt dataRet).nome

def out_pdf_path (linha : Row) (n : Nat) (sigla ano dataExt dataRet : String) : String :=
  PASTA_SAIDA ++ "/" ++ base_name linha n sigla ano dataExt dataRet ++ ".pdf"

def out_docx_path (linha : Row) (n : Nat) (sigla ano dataExt dataRet : String) : String :=
  PASTA_SAIDA ++ "/" ++ base_name linha n sigla ano dataExt dataRet ++ ".docx"

/-- `gerar_documento` over an abstract filesystem (the list of existing paths).
The DOCX→PDF converter backends are modelled by the success oracle `conv`;
a failed conversion creates nothing.  Returns the reported output path and
the filesystem afterwards.  Identical control flow in both revisions. -/
def gerar_documento (fs : List String) (linha : Row) (n : Nat)
    (sigla ano dataExt dataRet : String) (conv : Bool) : String × List String :=
  let out_docx := out_docx_path linha n sigla ano dataExt dataRet
  let out_pdf := out_pdf_path linha n sigla ano dataExt dataRet
  if out_pdf ∈ fs then (out_pdf, fs)
  else if out_docx ∈ fs then
    if conv then (out_pdf, out_pdf :: fs) else (out_docx, fs)
  else
    let fs1 := out_docx :: fs
    if conv then (out_pdf, out_pdf :: fs1) else (out_docx, fs1)

/-! ## Concrete instances used by the examples, witnesses and counterexamples -/

/-- A ledger whose sequence column holds 3, 7, 2. -/
def dfEx37 : DataFrame := ⟨["N req."], [[some "3"], [some "7"], [some "2"]]⟩

/-- A freshly created empty ledger. -/
def dfEmptyLedger : DataFrame := ⟨COLUNAS_PADRAO, []⟩

/-- A non-empty ledger whose sequence column holds no numeric value. -/
def dfBadLedger : DataFrame := ⟨["N req.", "NOME"], [[some "abc", some "x"]]⟩

/-- A one-row ledger storing "Ana Silva". -/
def dfAna : DataFrame :=
  ⟨["N req.", "NOME", "ID", "CPF", "Data"],
   [[some "1", some "Ana Silva", some "111", some "222", some "01/01/2025"]]⟩

/-- A candidate named "ana SILVA" with Ana's identifiers. -/
def candAna : Row :=
  { nome := some "ana SILVA", id := some "111", cpf := some "222",
    curso := none, turma := none, oferta := none, chamado := none,
    data := some "01/01/2025", retorno := none }

/-- A ledger whose only row matches Bob but has a non-numeric sequence value. -/
def dfBobLedger : DataFrame := ⟨["NOME", "N req."], [[some "Bob", some "abc"]]⟩

/-- A candidate matching the stored Bob row. -/
def candBob : Row :=
  { nome := some "bob", id := none, cpf := none, curso := none, turma := none,
    oferta := none, chamado := none, data := none, retorno := none }

/-- A table with a column outside the fixed set. -/
def dfExtra : DataFrame := ⟨["EXTRA"], [[some "x"]]⟩

/-- A table whose only column is one of the fixed columns. -/
def dfOnlyNome : DataFrame := ⟨["NOME"], [[some "A"]]⟩

/-- A concrete record for the rendering witnesses. -/
def rowBlank : Row :=
  { nome := some "Ana", id := none, cpf := none, curso := none, turma := none,
    oferta := none, chamado := none, data := none, retorno := none }

/-! ## Generic `foldl max` lemmas -/

theorem foldl_max_le_init {α : Type} [LinearOrder α] (l : List α) (a : α) :
    a ≤ l.foldl max a := by
  induction l generalizing a with
  | nil => simp
  | cons b l ih => exact le_trans (le_max_left a b) (ih (max a b))

theorem le_foldl_max_of_mem {α : Type} [LinearOrder α] {v : α} {l : List α}
    (h : v ∈ l) (a : α) : v ≤ l.foldl max a := by
  induction l generalizing a with
  | nil => cases h
  | cons b l ih =>
    rcases List.mem_cons.mp h with rfl | h2
    · exact le_trans (le_max_right a v) (foldl_max_le_init l (max a v))
    · exact ih h2 (max a b)

theorem le_foldl_max_head {α : Type} [LinearOrder α] {v x : α} {xs : List α}
    (h : v ∈ x :: xs) : v ≤ xs.foldl max x := by
  rcases List.mem_cons.mp h with rfl | h2
  · exact foldl_max_le_init xs v
  · exact le_foldl_max_of_mem h2 x

theorem foldl_max_init_comm {α : Type} [LinearOrder α] (l : List α) (a b : α) :
    l.foldl max (max a b) = max a (l.foldl max b) := by
  induction l generalizing b with
  | nil => simp
  | cons c l ih =>
    show List.foldl max (max (max a b) c) l = max a (List.foldl max (max b c) l)
    rw [max_assoc, ih]

/-! ## Facts about the embedded allocator -/

/-- A non-empty list of numeric sequence values forces the code's guard
(`"N req." in df.columns and not df.empty`) to hold. -/
theorem nreqValues_guard {df : DataFrame} (h : nreqValues df ≠ []) :
    ((df.colIdx "N req.").isSome && !df.rows.isEmpty) = true := by
  cases hc : df.colIdx "N req." with
  | none => exact absurd (by simp [nreqValues, hc]) h
  | some i =>
    cases hr : df.rows with
    | nil => exact absurd (by simp [nreqValues, hc, hr]) h
    | cons r rs => simp [hc, hr]

/-- `max_sheet` when the sequence column has no numeric value. -/
theorem max_sheet_of_eq_nil {df : DataFrame} (hv : nreqValues df = []) :
    max_sheet_of df = 0 := by
  unfold max_sheet_of
  by_cases hg : ((df.colIdx "N req.").isSome && !df.rows.isEmpty) = true
  · simp [hg, hv]
  · simp [hg]

/-- `max_sheet` when the sequence column has numeric values. -/
theorem max_sheet_of_eq_cons {df : DataFrame} {x : Int} {xs : List Int}
    (hv : nreqValues df = x :: xs) : max_sheet_of df = xs.foldl max x := by
  have hg := @nreqValues_guard df (by simp [hv])
  unfold max_sheet_of
  simp [hg, hv]

/-- C1: for the revision that scans the output directory, `allocate` returns
`max(max_ledger, max_outputs) + 1`, where `max_ledger` is the maximum numeric
value of the `N req.` column (0 if absent or entirely non-numeric) and
`max_outputs` the maximum 2-digit prefix of a matching output filename
(0 if none); a ledger with sequence numbers {3, 7, 2} yields 8, and an empty
ledger with no matching output files yields 1. -/
theorem c1_allocate_scan_revision (df : DataFrame) (dirFiles : Option (List String))
    (sigla ano : String) :
    (proximo_nreq_mci df dirFiles sigla ano =
      max (ledgerMaxSpec df) ((max_protocolo_na_pasta dirFiles sigla ano : Nat) : Int) + 1) ∧
    proximo_nreq_mci dfEx37 (some []) "MCI" "2025" = 8 ∧
    proximo_nreq_mci dfEmptyLedger none "MCI" "2025" = 1 := by
  refine ⟨?_, by decide, by decide⟩
  unfold proximo_nreq_mci ledgerMaxSpec
  have hF0 : (0 : Int) ≤ ((max_protocolo_na_pasta dirFiles sigla ano : Nat) : Int) :=
    Int.ofNat_nonneg _
  cases hv : nreqValues df with
  | nil => rw [max_sheet_of_eq_nil hv]; simp
  | cons x xs =>
    rw [max_sheet_of_eq_cons hv]
    have h1 : List.foldl max (0 : Int) (x :: xs) = max 0 (List.foldl max x xs) := by
      show List.foldl max (max 0 x) xs = _
      exact foldl_max_init_comm xs 0 x
    rw [h1]
    have h2 : max (0 : Int)
        (max (List.foldl max x xs) ((max_protocolo_na_pasta dirFiles sigla ano : Nat) : Int)) =
        max (List.foldl max x xs) ((max_protocolo_na_pasta dirFiles sigla ano : Nat) : Int) :=
      max_eq_right (le_trans hF0 (le_max_right _ _))
    rw [← h2, max_assoc]

/-- C2: the allocator's result is strictly greater than every numeric value in
the ledger's sequence column and (in the directory-scanning revision) than
every 2-digit prefix of a matching output filename, in both revisions. -/
theorem c2_strictly_greater (df : DataFrame) (dirFiles : Option (List String))
    (sigla ano : String) (last : Int) (v : Int) (w : Nat) :
    (v ∈ nreqValues df → v < proximo_nreq_mci df dirFiles sigla ano) ∧
    (w ∈ matchedVals dirFiles sigla ano →
      (w : Int) < proximo_nreq_mci df dirFiles sigla ano) ∧
    (v ∈ nreqValues df → v < proximo_nreq_form df last) := by
  refine ⟨?_, ?_, ?_⟩
  · intro hv
    unfold proximo_nreq_mci
    cases hvs : nreqValues df with
    | nil => rw [hvs] at hv; cases hv
    | cons x xs =>
      rw [hvs] at hv
      rw [max_sheet_of_eq_cons hvs]
      have h1 : v ≤ xs.foldl max x := le_foldl_max_head hv
      have h2 : xs.foldl max x ≤
          max (xs.foldl max x) ((max_protocolo_na_pasta dirFiles sigla ano : Nat) : Int) :=
        le_max_left _ _
      omega
  · intro hw
    unfold proximo_nreq_mci
    have h1 : w ≤ max_protocolo_na_pasta dirFiles sigla ano := by
      unfold max_protocolo_na_pasta
      cases dirFiles with
      | none => simp [matchedVals] at hw
      | some files => exact le_foldl_max_of_mem hw 0
    have h2 : ((max_protocolo_na_pasta dirFiles sigla ano : Nat) : Int) ≤
        max (max_sheet_of df) ((max_protocolo_na_pasta dirFiles sigla ano : Nat) : Int) :=
      le_max_right _ _
    have h3 : (w : Int) ≤ ((max_protocolo_na_pasta dirFiles sigla ano : Nat) : Int) := by
      exact_mod_cast h1
    omega
  · intro hv
    have hg := @nreqValues_guard df (List.ne_nil_of_mem hv)
    unfold proximo_nreq_form
    cases hvs : nreqValues df with
    | nil => rw [hvs] at hv; cases hv
    | cons x xs =>
      rw [hvs] at hv
      simp only [hg, if_true]
      have h1 : v ≤ xs.foldl max x := le_foldl_max_head hv
      omega

/-- C2 witness at a concrete ledger, output directory and seed. -/
theorem c2_witness :
    ((3 : Int) < proximo_nreq_mci dfEx37 (some ["07MCI2025 Bob.pdf"]) "MCI" "2025") ∧
    (((7 : Nat) : Int) < proximo_nreq_mci dfEx37 (some ["07MCI2025 Bob.pdf"]) "MCI" "2025") ∧
    ((3 : Int) < proximo_nreq_form dfEx37 0) :=
  ⟨(c2_strictly_greater dfEx37 (some ["07MCI2025 Bob.pdf"]) "MCI" "2025" 0 3 7).1 (by decide),
   (c2_strictly_greater dfEx37 (some ["07MCI2025 Bob.pdf"]) "MCI" "2025" 0 3 7).2.1 (by decide),
   (c2_strictly_greater dfEx37 (some ["07MCI2025 Bob.pdf"]) "MCI" "2025" 0 3 7).2.2 (by decide)⟩

/-- C5 counterexample: on a non-empty ledger whose sequence column has no
numeric value, the revision without the directory scan still uses the
configuration fallback — the result depends on the seed, so the fallback is
not used *exactly* when the ledger is empty, and the result is not the ledger
maximum plus one. -/
theorem c5_counterexample :
    ¬ (∀ (df : DataFrame) (last : Int), df.rows ≠ [] →
        proximo_nreq_form df last = ledgerMaxSpec df + 1) := by
  intro h
  exact absurd (h dfBadLedger 5 (by decide)) (by decide)

/-- C5 (amended): the revision without the directory scan falls back to
`fallback_seed + 1` (1 when the seed is 0) exactly when the sequence column
contains no numeric value — in particular for every empty ledger; when the
column has numeric values the result is their maximum plus one; an empty
ledger with no seed yields 1. -/
theorem c5_fallback_amended (df : DataFrame) (last : Int) :
    (nreqValues df = [] →
      proximo_nreq_form df last = if last ≠ 0 then last + 1 else 1) ∧
    (∀ x xs, nreqValues df = x :: xs →
      proximo_nreq_form df last = xs.foldl max x + 1) ∧
    (df.rows = [] → proximo_nreq_form df 0 = 1) := by
  refine ⟨?_, ?_, ?_⟩
  · intro hv
    unfold proximo_nreq_form
    by_cases hg : ((df.colIdx "N req.").isSome && !df.rows.isEmpty) = true
    · simp [hg, hv]
    · simp [hg]
  · intro x xs hv
    have hg := @nreqValues_guard df (by simp [hv])
    unfold proximo_nreq_form
    simp [hg, hv]
  · intro hr
    unfold proximo_nreq_form
    simp [hr]

/-- C5 witness: the amended fallback clause at a concrete non-numeric ledger
and seed 5, and the numeric clause at the {3,7,2} ledger. -/
theorem c5_witness :
    proximo_nreq_form dfBadLedger 5 = 6 ∧ proximo_nreq_form dfEx37 9 = 8 :=
  ⟨((c5_fallback_amended dfBadLedger 5).1 (by decide)).trans (by decide),
   ((c5_fallback_amended dfEx37 9).2.1 3 [7, 2] (by decide)).trans (by decide)⟩

/-! ## Duplicate detection: the mask pipeline equals a row filter -/

theorem colMask_map (df : DataFrame) (dados : Row) (col : String)
    (p : List Cell → Bool) :
    colMask df dados col (df.rows.map p) =
      df.rows.map (fun r =>
        p r && (!(df.colIdx col).isSome || colTest df dados col r)) := by
  unfold colMask
  by_cases h : (df.colIdx col).isSome = true
  · rw [if_pos h, List.zipWith_map_left, List.zipWith_same]
    simp [h]
  · have h2 : (df.colIdx col).isSome = false := by simpa using h
    rw [if_neg (by simp [h2])]
    simp [h2]

theorem mask_eq_matches (df : DataFrame) (dados : Row) :
    colMask df dados "Data" (colMask df dados "CPF"
      (colMask df dados "ID" (nomeMask df dados))) =
      df.rows.map (matchesCandidate df dados) := by
  unfold nomeMask
  rw [colMask_map, colMask_map, colMask_map]
  simp [matchesCandidate, Bool.and_assoc]

theorem zip_mask_filter {α : Type} (l : List α) (p : α → Bool) :
    (List.zip l (l.map p)).filterMap
      (fun x => if x.2 then some x.1 else none) = l.filter p := by
  induction l with
  | nil => rfl
  | cons a l ih =>
    simp only [List.map_cons, List.zip_cons_cons, List.filterMap_cons,
      List.filter_cons]
    cases h : p a <;> simp [h, ih]

/-- `existe_registro` computes the filter the spec describes and returns the
first match's parsed sequence number. -/
theorem existe_registro_eq_filter (df : DataFrame) (dados : Row) :
    existe_registro df dados =
      match df.rows.filter (matchesCandidate df dados) with
      | [] => none
      | r :: _ => seqParse df r := by
  unfold existe_registro
  by_cases h : df.rows.isEmpty = true
  · have hr : df.rows = [] := by
      cases hrr : df.rows with
      | nil => rfl
      | cons a l => rw [hrr] at h; simp at h
    rw [if_pos h, hr]
    rfl
  · rw [if_neg h, mask_eq_matches]
    simp only [zip_mask_filter]

/-- C3: `find_existing` returns none for an empty ledger; otherwise it selects
exactly the rows whose name matches after trimming and case-folding and whose
`ID`/`CPF`/`Data` values (for the columns the ledger has) match exactly after
trimming, returning the first matching row's sequence number; in particular
the candidate "ana SILVA" matches the stored row "Ana Silva". -/
theorem c3_find_existing (df : DataFrame) (dados : Row) (cs : List String) :
    (existe_registro df dados =
      match df.rows.filter (matchesCandidate df dados) with
      | [] => none
      | r :: _ => seqParse df r) ∧
    existe_registro ⟨cs, []⟩ dados = none ∧
    existe_registro dfAna candAna = some 1 :=
  ⟨existe_registro_eq_filter df dados, rfl, by decide⟩

/-- C4: when the first row passing the duplicate-detection filter has a
sequence-number value that does not parse as a number, `find_existing`
returns none instead of raising or returning that row. -/
theorem c4_unparsable_sequence (df : DataFrame) (dados : Row) (r : List Cell)
    (rs : List (List Cell))
    (hfilter : df.rows.filter (matchesCandidate df dados) = r :: rs)
    (hparse : seqParse df r = none) :
    existe_registro df dados = none := by
  rw [existe_registro_eq_filter, hfilter]
  exact hparse

/-- C4 witness: a matching row whose `N req.` is `"abc"` yields none. -/
theorem c4_witness : existe_registro dfBobLedger candBob = none :=
  c4_unparsable_sequence dfBobLedger candBob [some "Bob", some "abc"] []
    (by decide) (by decide)

/-! ## Ledger store round trip -/

/-- Column presence in the embedding coincides with list membership. -/
theorem colIdx_isSome_iff {df : DataFrame} {c : String} :
    (df.colIdx c).isSome = true ↔ c ∈ df.cols := by
  unfold DataFrame.colIdx
  rw [List.findIdx?_isSome]
  simp

/-- Every fixed column name is already stripped. -/
theorem strip_fixed_id : ∀ c ∈ COLUNAS_PADRAO, pyStripS c = c := by decide

/-- C6 counterexample: a table with a column outside the fixed set does not
round-trip to exactly the fixed column set — the extra column survives. -/
theorem c6_counterexample :
    ¬ (∀ df : DataFrame, ∀ c : String,
        c ∈ (roundTrip df).cols ↔ c ∈ COLUNAS_PADRAO) := by
  intro h
  exact absurd ((h dfExtra "EXTRA").mp (by decide)) (by decide)

/-- C6 (amended): saving a table and reloading the saved file preserves every
previously present row cell (each row is extended with empty values for the
added columns, nothing else changes), the reloaded column set contains every
fixed column, and it is exactly the fixed set when the original table's
columns all belong to the fixed set — an extra column survives the round
trip, so "no more" holds only under that proviso. -/
theorem c6_roundtrip_amended (df : DataFrame) :
    ((roundTrip df).rows =
      df.rows.map (fun r =>
        r ++ List.replicate (missingCols df).length (none : Cell))) ∧
    (∀ c ∈ COLUNAS_PADRAO, c ∈ (roundTrip df).cols) ∧
    ((∀ c ∈ df.cols, c ∈ COLUNAS_PADRAO) →
      ∀ c ∈ (roundTrip df).cols, c ∈ COLUNAS_PADRAO) := by
  have hcols : (roundTrip df).cols = (df.cols ++ missingCols df).map pyStripS := rfl
  refine ⟨rfl, ?_, ?_⟩
  · intro c hc
    rw [hcols]
    by_cases hm : c ∈ df.cols
    · exact List.mem_map.mpr ⟨c, List.mem_append_left _ hm, strip_fixed_id c hc⟩
    · have hmiss : c ∈ missingCols df := by
        unfold missingCols
        refine List.mem_filter.mpr ⟨hc, ?_⟩
        have : (df.colIdx c).isSome = false := by
          rcases hi : (df.colIdx c).isSome with _ | _
          · rfl
          · exact absurd (colIdx_isSome_iff.mp hi) hm
        simp [this]
      exact List.mem_map.mpr ⟨c, List.mem_append_right _ hmiss, strip_fixed_id c hc⟩
  · intro hsub c hc
    rw [hcols] at hc
    obtain ⟨c0, hc0, rfl⟩ := List.mem_map.mp hc
    rcases List.mem_append.mp hc0 with h0 | h0
    · have hfix := hsub c0 h0
      rw [strip_fixed_id c0 hfix]
      exact hfix
    · have hfix : c0 ∈ COLUNAS_PADRAO := (List.mem_filter.mp h0).1
      rw [strip_fixed_id c0 hfix]
      exact hfix

/-- C6 witness: the exactly-the-fixed-set clause applied to a table whose
only column is `NOME`. -/
theorem c6_witness : "NOME" ∈ COLUNAS_PADRAO :=
  (c6_roundtrip_amended dfOnlyNome).2.2 (by decide) "NOME" (by decide)

/-! ## Document rendering idempotence -/

/-- When the fixed-layout output already exists, `gerar_documento` returns its
path and touches nothing. -/
theorem gerar_pdf_mem (fs : List String) (linha : Row) (n : Nat)
    (sigla ano dataExt dataRet : String) (conv : Bool)
    (h : out_pdf_path linha n sigla ano dataExt dataRet ∈ fs) :
    gerar_documento fs linha n sigla ano dataExt dataRet conv =
      (out_pdf_path linha n sigla ano dataExt dataRet, fs) := by
  unfold gerar_documento
  rw [if_pos h]

/-- C7: rendering is idempotent — when the fixed-layout (PDF) output for the
record's computed filename already exists, render returns that path and
creates nothing; hence a second call after a first one that left the PDF in
place creates no new file and returns the existing PDF's path. -/
theorem c7_render_idempotent (fs : List String) (linha : Row) (n : Nat)
    (sigla ano dataExt dataRet : String) (conv : Bool) :
    (out_pdf_path linha n sigla ano dataExt dataRet ∈ fs →
      gerar_documento fs linha n sigla ano dataExt dataRet conv =
        (out_pdf_path linha n sigla ano dataExt dataRet, fs)) ∧
    (out_pdf_path linha n sigla ano dataExt dataRet ∈
        (gerar_documento fs linha n sigla ano dataExt dataRet conv).2 →
      gerar_documento (gerar_documento fs linha n sigla ano dataExt dataRet conv).2
          linha n sigla ano dataExt dataRet conv =
        (out_pdf_path linha n sigla ano dataExt dataRet,
          (gerar_documento fs linha n sigla ano dataExt dataRet conv).2)) :=
  ⟨gerar_pdf_mem fs linha n sigla ano dataExt dataRet conv,
   gerar_pdf_mem _ linha n sigla ano dataExt dataRet conv⟩

/-- C7 witness: with the PDF already on disk, rendering returns it unchanged. -/
theorem c7_witness :
    gerar_documento [out_pdf_path rowBlank 1 "MCI" "2025" "d" "r"]
        rowBlank 1 "MCI" "2025" "d" "r" true =
      (out_pdf_path rowBlank 1 "MCI" "2025" "d" "r",
        [out_pdf_path rowBlank 1 "MCI" "2025" "d" "r"]) :=
  (c7_render_idempotent [out_pdf_path rowBlank 1 "MCI" "2025" "d" "r"]
    rowBlank 1 "MCI" "2025" "d" "r" true).1 (by decide)

/-! ## National-id normalization and display formatting -/

/-- C8: national-id normalization deletes every non-digit (so
`"123.456.789-09"` becomes `"12345678909"`), and the display form groups the
digits as 3-3-3 plus a 2-digit suffix exactly when the digits-only value
truncated to length 11 has that full length (equivalently, at least 11 digits
are present), returning the digits unformatted otherwise; an 8-digit input
stays `"12345678"`. -/
theorem c8_cpf_normalization (s : String) :
    (format_cpf (some s) =
      if 11 ≤ (sanitize_num (some s)).length then
        cpfGrouped (String.mk ((sanitize_num (some s)).data.take 11))
      else sanitize_num (some s)) ∧
    sanitize_num (some "123.456.789-09") = "12345678909" ∧
    format_cpf (some "123.456.789-09") = "123.456.789-09" ∧
    format_cpf (some "12345678") = "12345678" := by
  refine ⟨?_, by decide, by decide, by decide⟩
  unfold format_cpf cpfGrouped
  have hlen : (sanitize_num (some s)).length = (sanitize_num (some s)).data.length := rfl
  by_cases h : 11 ≤ (sanitize_num (some s)).data.length
  · have h1 : ((sanitize_num (some s)).data.take 11).length = 11 := by
      rw [List.length_take]
      omega
    rw [if_pos h1, if_pos (hlen ▸ h)]
  · have h1 : ((sanitize_num (some s)).data.take 11).length ≠ 11 := by
      rw [List.length_take]
      omega
    rw [if_neg h1, if_neg (hlen ▸ h)]
    have h2 : (sanitize_num (some s)).data.take 11 = (sanitize_num (some s)).data :=
      List.take_of_length_le (by omega)
    rw [h2]

/-! ## Decimal rendering of the sequence number -/

/-- The character `Char.ofNat (48 + m)` of a digit value `m < 10`. -/
theorem digitChar_facts {m : Nat} (h : m < 10) :
    (Char.ofNat (48 + m)).toNat = 48 + m ∧ pyIsDigit (Char.ofNat (48 + m)) = true := by
  interval_cases m <;> exact ⟨by decide, by decide⟩

theorem digitsVal_append (l : List Char) (c : Char) :
    digitsVal (l ++ [c]) = digitsVal l * 10 + (c.toNat - 48) := by
  unfold digitsVal
  rw [List.foldl_append]
  rfl

theorem decDigitsCore_spec : ∀ fuel n : Nat, 0 < n → n ≤ fuel →
    digitsVal (decDigitsCore fuel n) = n ∧
    (decDigitsCore fuel n).all pyIsDigit = true ∧
    decDigitsCore fuel n ≠ [] := by
  intro fuel
  induction fuel with
  | zero => intro n h1 h2; omega
  | succ fuel ih =>
    intro n h1 h2
    have hcore : decDigitsCore (fuel + 1) n =
        decDigitsCore fuel (n / 10) ++ [Char.ofNat (48 + n % 10)] := by
      cases n with
      | zero => omega
      | succ m => rfl
    rw [hcore]
    have hm : n % 10 < 10 := Nat.mod_lt _ (by norm_num)
    obtain ⟨hc1, hc2⟩ := digitChar_facts hm
    by_cases hq : n / 10 = 0
    · have h0 : decDigitsCore fuel 0 = [] := by cases fuel <;> rfl
      rw [hq, h0]
      refine ⟨?_, by simp [hc2], by simp⟩
      have hn10 : n < 10 := by omega
      rw [digitsVal_append, hc1]
      have : digitsVal [] = 0 := rfl
      have hmod : n % 10 = n := Nat.mod_eq_of_lt hn10
      simp [this, hmod]
    · have hq1 : 0 < n / 10 := Nat.pos_of_ne_zero hq
      have hq2 : n / 10 ≤ fuel := by
        have := Nat.div_lt_self h1 (by norm_num : 1 < 10)
        omega
      obtain ⟨ih1, ih2, ih3⟩ := ih (n / 10) hq1 hq2
      refine ⟨?_, by simp [ih2, hc2], by simp⟩
      rw [digitsVal_append, ih1, hc1]
      have := Nat.div_add_mod n 10
      omega

theorem decDigits_spec (n : Nat) :
    digitsVal (decDigits n) = n ∧ (decDigits n).all pyIsDigit = true ∧
      decDigits n ≠ [] := by
  by_cases h : n = 0
  · subst h
    exact ⟨by decide, by decide, by decide⟩
  · unfold decDigits
    rw [if_neg h]
    exact decDigitsCore_spec n n (Nat.pos_of_ne_zero h) le_rfl

theorem decDigitsCore_len_le : ∀ fuel n k : Nat, n ≤ fuel → n < 10 ^ k →
    (decDigitsCore fuel n).length ≤ k := by
  intro fuel
  induction fuel with
  | zero =>
    intro n k h1 h2
    have : n = 0 := by omega
    subst this
    simp [decDigitsCore]
  | succ fuel ih =>
    intro n k h1 h2
    cases n with
    | zero => simp [decDigitsCore]
    | succ m =>
      cases k with
      | zero => simp at h2
      | succ k =>
        have hq2 : (m + 1) / 10 ≤ fuel := by
          have := Nat.div_lt_self (Nat.succ_pos m) (by norm_num : 1 < 10)
          omega
        have hdiv : (m + 1) / 10 < 10 ^ k := by
          rw [Nat.div_lt_iff_lt_mul (by norm_num : 0 < 10)]
          calc m + 1 < 10 ^ (k + 1) := h2
          _ = 10 ^ k * 10 := by ring
        have hlen := ih ((m + 1) / 10) k hq2 hdiv
        show (decDigitsCore fuel ((m + 1) / 10) ++ [Char.ofNat (48 + (m + 1) % 10)]).length ≤
          k + 1
        rw [List.length_append]
        simp only [List.length_cons, List.length_nil]
        omega

theorem decDigitsCore_len_ge : ∀ fuel n k : Nat, n ≤ fuel → 10 ^ k ≤ n →
    k < (decDigitsCore fuel n).length := by
  intro fuel
  induction fuel with
  | zero =>
    intro n k h1 h2
    have hp : 0 < 10 ^ k := pow_pos (by norm_num) k
    omega
  | succ fuel ih =>
    intro n k h1 h2
    have hp : 0 < 10 ^ k := pow_pos (by norm_num) k
    have hn : 0 < n := by omega
    have hcore : decDigitsCore (fuel + 1) n =
        decDigitsCore fuel (n / 10) ++ [Char.ofNat (48 + n % 10)] := by
      cases n with
      | zero => omega
      | succ m => rfl
    rw [hcore, List.length_append]
    cases k with
    | zero => simp
    | succ k =>
      have hdiv : 10 ^ k ≤ n / 10 := by
        rw [Nat.le_div_iff_mul_le (by norm_num : 0 < 10)]
        calc 10 ^ k * 10 = 10 ^ (k + 1) := by ring
        _ ≤ n := h2
      have hq2 : n / 10 ≤ fuel := by
        have := Nat.div_lt_self hn (by norm_num : 1 < 10)
        omega
      have := ih (n / 10) k hq2 hdiv
      simp only [List.length_cons, List.length_nil]
      omega

theorem decDigits_len_ge3 {n : Nat} (h : 100 ≤ n) : 3 ≤ (decDigits n).length := by
  unfold decDigits
  rw [if_neg (by omega)]
  have h2 : 10 ^ 2 ≤ n := by norm_num; omega
  have := decDigitsCore_len_ge n n 2 le_rfl h2
  omega

theorem decDigits_len_le2 {n : Nat} (h : n < 100) : (decDigits n).length ≤ 2 := by
  by_cases h0 : n = 0
  · subst h0; decide
  · unfold decDigits
    rw [if_neg h0]
    exact decDigitsCore_len_le n n 2 le_rfl (by norm_num; omega)

theorem digitsVal_replicate_zero (k : Nat) (l : List Char) :
    digitsVal (List.replicate k '0' ++ l) = digitsVal l := by
  induction k with
  | zero => rfl
  | succ k ih =>
    rw [List.replicate_succ, List.cons_append]
    show List.foldl (fun a c => a * 10 + (c.toNat - 48))
      (0 * 10 + ('0'.toNat - 48)) (List.replicate k '0' ++ l) = digitsVal l
    have h0 : 0 * 10 + ('0'.toNat - 48) = 0 := by decide
    rw [h0]
    exact ih

theorem replicate_zero_all_digits (k : Nat) :
    (List.replicate k '0').all pyIsDigit = true :=
  List.all_eq_true.mpr fun c hc => by
    rw [List.eq_of_mem_replicate hc]
    decide

/-- C9: the sequence number is rendered for display and filenames as the
2-digit zero-padded decimal string; for `n ≥ 100` the rendered string is the
full decimal representation (no truncation), and for every `n` the rendered
string parses back to `n`. -/
theorem c9_sequence_render (linha : Row) (dataExt dataRet : String) (n : Nat) :
    (montar_mapa linha n dataExt dataRet).protocolo = format02d n ∧
    parseDec (format02d n) = some n ∧
    (100 ≤ n → format02d n = decRepr n) ∧
    (n < 100 → (format02d n).length = 2) := by
  obtain ⟨hval, hdig, hne⟩ := decDigits_spec n
  refine ⟨rfl, ?_, ?_, ?_⟩
  · unfold parseDec format02d
    have hdata : (String.mk (List.replicate (2 - (decDigits n).length) '0' ++
        decDigits n)).data =
        List.replicate (2 - (decDigits n).length) '0' ++ decDigits n := rfl
    rw [hdata]
    have hne2 : (List.replicate (2 - (decDigits n).length) '0' ++
        decDigits n).isEmpty = false := by
      cases h : List.replicate (2 - (decDigits n).length) '0' ++ decDigits n with
      | nil => exact absurd (List.append_eq_nil.mp h).2 hne
      | cons a l => rfl
    rw [hne2]
    have hall : (List.replicate (2 - (decDigits n).length) '0' ++
        decDigits n).all pyIsDigit = true := by
      rw [List.all_append, replicate_zero_all_digits, hdig]
      rfl
    rw [hall]
    simp only [if_true, if_false, Bool.false_eq_true, ite_false, ite_true]
    rw [digitsVal_replicate_zero, hval]
  · intro h
    unfold format02d decRepr
    have h3 := decDigits_len_ge3 h
    have hz : 2 - (decDigits n).length = 0 := by omega
    rw [hz]
    rfl
  · intro h
    have hle := decDigits_len_le2 h
    have hge : 0 < (decDigits n).length := List.length_pos.mpr hne
    show (String.mk (List.replicate (2 - (decDigits n).length) '0' ++
      decDigits n)).length = 2
    have : (String.mk (List.replicate (2 - (decDigits n).length) '0' ++
        decDigits n)).length =
        (List.replicate (2 - (decDigits n).length) '0' ++ decDigits n).length := rfl
    rw [this, List.length_append, List.length_replicate]
    omega

/-- C9 witness: no truncation at 123, two digits at 7. -/
theorem c9_witness : format02d 123 = decRepr 123 ∧ (format02d 7).length = 2 :=
  ⟨(c9_sequence_render rowBlank "d" "r" 123).2.2.1 (by norm_num),
   (c9_sequence_render rowBlank "d" "r" 7).2.2.2 (by norm_num)⟩

/-! ## Short-code sanitizer -/

theorem isUpperAlnum_not_space {c : Char} (h : isUpperAlnum c = true) :
    pyIsSpace c = false := by
  simp only [isUpperAlnum, Bool.or_eq_true, Bool.and_eq_true,
    decide_eq_true_eq] at h
  simp only [pyIsSpace, Bool.or_eq_false_iff, beq_eq_false_iff_ne, ne_eq]
  omega

theorem isUpperAlnum_pyUpper {c : Char} (h : isUpperAlnum c = true) :
    pyUpper c = c := by
  simp only [isUpperAlnum, Bool.or_eq_true, Bool.and_eq_true,
    decide_eq_true_eq] at h
  unfold pyUpper
  split
  · rename_i h2
    simp only [Bool.and_eq_true, decide_eq_true_eq] at h2
    omega
  · rfl

theorem dropWhile_eq_self_of_all {l : List Char} {p : Char → Bool}
    (h : ∀ c ∈ l, p c = false) : l.dropWhile p = l := by
  cases l with
  | nil => rfl
  | cons a l => simp [List.dropWhile_cons, h a (List.mem_cons_self a l)]

theorem pyStrip_eq_self_of_all {l : List Char}
    (h : ∀ c ∈ l, pyIsSpace c = false) : pyStrip l = l := by
  unfold pyStrip
  rw [dropWhile_eq_self_of_all h,
    dropWhile_eq_self_of_all (fun c hc => h c (List.mem_reverse.mp hc)),
    List.reverse_reverse]

/-- C10: the short-code sanitizer always returns a non-empty string of
uppercase ASCII letters and digits, equal to the uppercased trimmed input
with all other characters deleted — or the default `"MCI"` when nothing
remains — and it is idempotent. -/
theorem c10_sanitize_sigla (s : String) :
    0 < (sanitize_sigla s).length ∧
    (sanitize_sigla s).data.all isUpperAlnum = true ∧
    sanitize_sigla s =
      (if ((pyStrip s.data).map pyUpper).filter isUpperAlnum = [] then "MCI"
       else String.mk (((pyStrip s.data).map pyUpper).filter isUpperAlnum)) ∧
    sanitize_sigla (sanitize_sigla s) = sanitize_sigla s := by
  set u := ((pyStrip s.data).map pyUpper).filter isUpperAlnum with hu
  have key : sanitize_sigla s = if u.isEmpty then "MCI" else String.mk u := rfl
  by_cases he : u = []
  · have h1 : sanitize_sigla s = "MCI" := by
      rw [key, he]
      rfl
    rw [h1]
    exact ⟨by decide, by decide, by rw [if_pos he], by decide⟩
  · have hne : u.isEmpty = false := by
      cases hc : u with
      | nil => exact absurd hc he
      | cons a l => rfl
    have h1 : sanitize_sigla s = String.mk u := by
      rw [key, hne]
      rfl
    have hmem : ∀ c ∈ u, isUpperAlnum c = true := fun c hc =>
      (List.mem_filter.mp (hu ▸ hc)).2
    have hstrip : pyStrip u = u :=
      pyStrip_eq_self_of_all fun c hc => isUpperAlnum_not_space (hmem c hc)
    have hupper : u.map pyUpper = u := by
      conv_rhs => rw [← List.map_id u]
      exact List.map_congr_left fun c hc => isUpperAlnum_pyUpper (hmem c hc)
    have hfilter : u.filter isUpperAlnum = u := List.filter_eq_self.mpr hmem
    refine ⟨?_, ?_, ?_, ?_⟩
    · rw [h1]
      show 0 < u.length
      exact List.length_pos.mpr he
    · rw [h1]
      exact List.all_eq_true.mpr hmem
    · rw [h1, if_neg he]
    · rw [h1]
      show sanitize_sigla (String.mk u) = String.mk u
      unfold sanitize_sigla
      rw [show (String.mk u).data = u from rfl, hstrip, hupper, hfilter]
      simp [hne]

end ProtocoloAtestado
